import Mathlib

/-!
Shallow embedding of `mujoco/mjx/_src/ray.py` (ray/primitive intersection
casting) and verification of its specification claims.

Numeric model: JAX float arrays are modelled by exact rationals extended with
the IEEE special values `+inf`, `-inf` and `nan` (type `RQ`).  Rounding is not
modelled; arithmetic on finite values is exact.  `jp.sqrt` is modelled by
`sqrtq`, which is exact whenever the radicand is a perfect square of a
rational (general theorems that depend on the value of a square root carry an
explicit exactness hypothesis).
-/

namespace MjxRay

/-- `mujoco.mjMINVAL = 1e-15`. -/
def mjMINVAL : ℚ := 1 / 10 ^ 15

/-- `mujoco.mjNGROUP = 6`. -/
def mjNGROUP : Int := 6

/-- Fuel-based integer square root (floor), structurally recursive so that
concrete values reduce. -/
def isqrtF : ℕ → ℕ → ℕ
  | 0, _ => 0
  | fuel + 1, n =>
    if n < 2 then n
    else
      let s := isqrtF fuel (n / 4) * 2
      if n < (s + 1) * (s + 1) then s else s + 1

/-- Integer square root (floor). -/
def isqrt (n : ℕ) : ℕ := isqrtF n n

/-- Rational square root: exact whenever the input is a nonnegative perfect
square `q = s * s` (then the result is `s`); used to model `jp.sqrt`. -/
def sqrtq (q : ℚ) : ℚ := (isqrt (q.num.toNat * q.den) : ℚ) / (q.den : ℚ)

/-- Extended rationals with IEEE special values: models a JAX scalar. -/
inductive RQ where
  | nan : RQ
  | pinf : RQ
  | ninf : RQ
  | fin : ℚ → RQ
deriving DecidableEq

namespace RQ

def neg : RQ → RQ
  | nan => nan
  | pinf => ninf
  | ninf => pinf
  | fin q => fin (-q)

def add : RQ → RQ → RQ
  | nan, _ => nan
  | _, nan => nan
  | pinf, pinf => pinf
  | pinf, ninf => nan
  | pinf, fin _ => pinf
  | ninf, pinf => nan
  | ninf, ninf => ninf
  | ninf, fin _ => ninf
  | fin _, pinf => pinf
  | fin _, ninf => ninf
  | fin a, fin b => fin (a + b)

def sub (a b : RQ) : RQ := add a (neg b)

def mul : RQ → RQ → RQ
  | nan, _ => nan
  | _, nan => nan
  | pinf, pinf => pinf
  | pinf, ninf => ninf
  | ninf, pinf => ninf
  | ninf, ninf => pinf
  | pinf, fin b => if 0 < b then pinf else if b < 0 then ninf else nan
  | ninf, fin b => if 0 < b then ninf else if b < 0 then pinf else nan
  | fin a, pinf => if 0 < a then pinf else if a < 0 then ninf else nan
  | fin a, ninf => if 0 < a then ninf else if a < 0 then pinf else nan
  | fin a, fin b => fin (a * b)

/-- IEEE division (zero is unsigned in this model, i.e. `+0`). -/
def div : RQ → RQ → RQ
  | nan, _ => nan
  | _, nan => nan
  | pinf, pinf => nan
  | pinf, ninf => nan
  | ninf, pinf => nan
  | ninf, ninf => nan
  | pinf, fin b => if 0 ≤ b then pinf else ninf
  | ninf, fin b => if 0 ≤ b then ninf else pinf
  | fin _, pinf => fin 0
  | fin _, ninf => fin 0
  | fin a, fin b =>
      if b = 0 then (if 0 < a then pinf else if a < 0 then ninf else nan)
      else fin (a / b)

def sqrt : RQ → RQ
  | nan => nan
  | pinf => pinf
  | ninf => nan
  | fin q => if q < 0 then nan else fin (sqrtq q)

def abs : RQ → RQ
  | nan => nan
  | pinf => pinf
  | ninf => pinf
  | fin q => fin |q|

/-- Strict comparison; any comparison with `nan` is false. -/
def lt : RQ → RQ → Bool
  | nan, _ => false
  | _, nan => false
  | pinf, _ => false
  | ninf, ninf => false
  | ninf, _ => true
  | fin _, pinf => true
  | fin _, ninf => false
  | fin a, fin b => decide (a < b)

/-- Non-strict comparison; any comparison with `nan` is false. -/
def le : RQ → RQ → Bool
  | nan, _ => false
  | _, nan => false
  | ninf, _ => true
  | _, pinf => true
  | pinf, _ => false
  | fin _, ninf => false
  | fin a, fin b => decide (a ≤ b)

def isinf : RQ → Bool
  | pinf => true
  | ninf => true
  | _ => false

/-- `nan`-propagating binary minimum, as used by `jnp.min` reductions. -/
def min2 : RQ → RQ → RQ
  | nan, _ => nan
  | _, nan => nan
  | a, b => if lt b a then b else a

end RQ

/-- `jnp.min` over a vector of scalars (our uses are over `nan`-free data, so
the `+inf` seed is the reduction identity). -/
def rqMinList (l : List RQ) : RQ := l.foldl RQ.min2 RQ.pinf

/-- A 3-vector of (finite) scalars. -/
structure Vec3 where
  x : ℚ
  y : ℚ
  z : ℚ
deriving DecidableEq

def Vec3.dot (a b : Vec3) : ℚ := a.x * b.x + a.y * b.y + a.z * b.z

def Vec3.sub (a b : Vec3) : Vec3 := ⟨a.x - b.x, a.y - b.y, a.z - b.z⟩

/-- Component access matching `v[0]`, `v[1]`, `v[2]`. -/
def Vec3.nth (v : Vec3) : ℕ → ℚ
  | 0 => v.x
  | 1 => v.y
  | _ => v.z

/-- A 3x3 matrix of scalars, entry `mij` at row `i`, column `j`. -/
structure Mat3 where
  m00 : ℚ
  m01 : ℚ
  m02 : ℚ
  m10 : ℚ
  m11 : ℚ
  m12 : ℚ
  m20 : ℚ
  m21 : ℚ
  m22 : ℚ
deriving DecidableEq

/-- `m.T @ v` (transpose times vector), as used to map rays to local frames. -/
def Mat3.tmulv (m : Mat3) (v : Vec3) : Vec3 :=
  ⟨m.m00 * v.x + m.m10 * v.y + m.m20 * v.z,
   m.m01 * v.x + m.m11 * v.y + m.m21 * v.z,
   m.m02 * v.x + m.m12 * v.y + m.m22 * v.z⟩

def mat3Id : Mat3 := ⟨1, 0, 0, 0, 1, 0, 0, 0, 1⟩

/-- Embeds `_ray_quad`: two solutions of `a*x^2 + 2*b*x + c = 0`, each root
replaced by `+inf` when the discriminant is below `mjMINVAL` or the root
compares below zero. -/
def ray_quad (a b c : ℚ) : RQ × RQ :=
  let det : ℚ := b * b - a * c
  let det_2 : RQ := RQ.sqrt (RQ.fin det)
  let x0 : RQ := RQ.div (RQ.sub (RQ.fin (-b)) det_2) (RQ.fin a)
  let x1 : RQ := RQ.div (RQ.add (RQ.fin (-b)) det_2) (RQ.fin a)
  let x0 := if decide (det < mjMINVAL) || RQ.lt x0 (RQ.fin 0) then RQ.pinf else x0
  let x1 := if decide (det < mjMINVAL) || RQ.lt x1 (RQ.fin 0) then RQ.pinf else x1
  (x0, x1)

/-- Embeds `_ray_plane`. -/
def ray_plane (size pnt vec : Vec3) : RQ :=
  let x : RQ := RQ.div (RQ.fin (-pnt.z)) (RQ.fin vec.z)
  let valid : Bool := decide (vec.z ≤ -mjMINVAL)
  let valid := valid && RQ.le (RQ.fin 0) x
  let p0 : RQ := RQ.add (RQ.fin pnt.x) (RQ.mul x (RQ.fin vec.x))
  let p1 : RQ := RQ.add (RQ.fin pnt.y) (RQ.mul x (RQ.fin vec.y))
  let valid := valid &&
    (decide (size.x ≤ 0) || RQ.le (RQ.abs p0) (RQ.fin size.x)) &&
    (decide (size.y ≤ 0) || RQ.le (RQ.abs p1) (RQ.fin size.y))
  if valid then x else RQ.pinf

/-- Embeds `_ray_sphere`. -/
def ray_sphere (size pnt vec : Vec3) : RQ :=
  let r := ray_quad (vec.dot vec) (vec.dot pnt) (pnt.dot pnt - size.x * size.x)
  if RQ.isinf r.1 then r.2 else r.1

/-- Embeds `_ray_capsule`. -/
def ray_capsule (size pnt vec : Vec3) : RQ :=
  let a : ℚ := vec.x * vec.x + vec.y * vec.y
  let b : ℚ := vec.x * pnt.x + vec.y * pnt.y
  let c : ℚ := pnt.x * pnt.x + pnt.y * pnt.y - size.x * size.x
  let r := ray_quad a b c
  let x := if RQ.isinf r.1 then r.2 else r.1
  -- make sure round solution is between flat sides
  let x := if RQ.le (RQ.abs (RQ.add (RQ.fin pnt.z) (RQ.mul x (RQ.fin vec.z))))
              (RQ.fin size.y) then x else RQ.pinf
  -- top cap
  let dif := pnt.sub ⟨0, 0, size.y⟩
  let rt := ray_quad (vec.dot vec) (vec.dot dif) (dif.dot dif - size.x * size.x)
  -- accept only top half of sphere
  let x := if RQ.le (RQ.fin size.y) (RQ.add (RQ.fin pnt.z) (RQ.mul rt.1 (RQ.fin vec.z)))
              && RQ.lt rt.1 x then rt.1 else x
  let x := if RQ.le (RQ.fin size.y) (RQ.add (RQ.fin pnt.z) (RQ.mul rt.2 (RQ.fin vec.z)))
              && RQ.lt rt.2 x then rt.2 else x
  -- bottom cap
  let dif2 : Vec3 := ⟨pnt.x + 0, pnt.y + 0, pnt.z + size.y⟩
  let rb := ray_quad (vec.dot vec) (vec.dot dif2) (dif2.dot dif2 - size.x * size.x)
  -- accept only bottom half of sphere
  let x := if RQ.le (RQ.add (RQ.fin pnt.z) (RQ.mul rb.1 (RQ.fin vec.z))) (RQ.fin (-size.y))
              && RQ.lt rb.1 x then rb.1 else x
  let x := if RQ.le (RQ.add (RQ.fin pnt.z) (RQ.mul rb.2 (RQ.fin vec.z))) (RQ.fin (-size.y))
              && RQ.lt rb.2 x then rb.2 else x
  x

/-- The six box faces in the array order of the source: for face
`(i, s, j0, j1)`, `i` is the normal axis, `s` the side sign, `(j0, j1)` the
row of `iface` (the two other axes). -/
def boxFaces : List (ℕ × ℚ × ℕ × ℕ) :=
  [(0, 1, 1, 2), (1, 1, 0, 2), (2, 1, 0, 1),
   (0, -1, 1, 2), (1, -1, 0, 2), (2, -1, 0, 1)]

/-- One entry of the box candidate vector: the face-plane solution
`x = (s*size[i] - pnt[i]) / vec[i]`, kept when the hit point is inside the
face rectangle and replaced by `+inf` otherwise. -/
def boxEntry (size pnt vec : Vec3) (f : ℕ × ℚ × ℕ × ℕ) : RQ :=
  let x : RQ := RQ.div (RQ.fin (f.2.1 * size.nth f.1 - pnt.nth f.1)) (RQ.fin (vec.nth f.1))
  let p0 : RQ := RQ.add (RQ.fin (pnt.nth f.2.2.1)) (RQ.mul x (RQ.fin (vec.nth f.2.2.1)))
  let p1 : RQ := RQ.add (RQ.fin (pnt.nth f.2.2.2)) (RQ.mul x (RQ.fin (vec.nth f.2.2.2)))
  let valid : Bool := RQ.le (RQ.abs p0) (RQ.fin (size.nth f.2.2.1)) &&
    RQ.le (RQ.abs p1) (RQ.fin (size.nth f.2.2.2))
  if valid then x else RQ.pinf

/-- Embeds `_ray_box`. -/
def ray_box (size pnt vec : Vec3) : RQ :=
  rqMinList (boxFaces.map (boxEntry size pnt vec))

/-- The geometry type enumeration (`mujoco.mjx._src.types.GeomType`),
restricted to the members this module distinguishes. -/
inductive GeomType where
  | PLANE
  | HFIELD
  | SPHERE
  | CAPSULE
  | ELLIPSOID
  | CYLINDER
  | BOX
  | MESH
deriving DecidableEq

/-- The `_RAY_FUNC` dispatch table: an ordered association of geometry type to
solver.  `MESH` is absent, matching the commented-out entry in the source
(`_ray_mesh` is defined there but not registered). -/
def RAY_FUNC : List (GeomType × (Vec3 → Vec3 → Vec3 → RQ)) :=
  [(GeomType.PLANE, ray_plane), (GeomType.SPHERE, ray_sphere),
   (GeomType.CAPSULE, ray_capsule), (GeomType.BOX, ray_box)]

/-- The fields of the MJX `Model` consulted by `ray`.  Per-geom arrays are
lists indexed by geom id; `mat_rgba_a` is the alpha channel of `mat_rgba`
indexed by material id, `body_weldid` is indexed by body id (total functions:
any array contents). -/
structure Model where
  geom_bodyid : List Int
  geom_matid : List Int
  geom_rgba_a : List ℚ
  geom_group : List Int
  geom_type : List GeomType
  geom_size : List Vec3
  mat_rgba_a : Int → ℚ
  body_weldid : Int → Int

/-- The fields of the MJX `Data` consulted by `ray`: per-geom world frames. -/
structure Data where
  geom_xpos : List Vec3
  geom_xmat : List Mat3

def Model.ngeom (m : Model) : ℕ := m.geom_type.length

/-- `np.clip g lo hi`. -/
def clip (g lo hi : Int) : Int := min (max g lo) hi

/-- Index used for the group-mask lookup: `np.clip(group, 0, mjNGROUP)`. -/
def groupIndex (g : Int) : ℕ := (clip g 0 mjNGROUP).toNat

/-- The filter conjuncts of `ray` that do not involve the group mask:
body exclusion, transparency (own alpha or material alpha), static flag. -/
def geomFilterBase (m : Model) (flg_static : Bool) (bodyexclude : Int) (i : ℕ) : Bool :=
  let bodyid := m.geom_bodyid.getD i 0
  let matid := m.geom_matid.getD i (-1)
  decide (bodyid ≠ bodyexclude) &&
  (decide (matid ≠ -1) || decide (m.geom_rgba_a.getD i 1 ≠ 0)) &&
  (decide (matid = -1) || decide (m.mat_rgba_a matid ≠ 0)) &&
  (flg_static || decide (m.body_weldid bodyid ≠ 0))

/-- Full geom filter including the group-mask conjunct (an empty caller mask
is skipped, mirroring `if geomgroup:`). -/
def geomFilter (m : Model) (geomgroup : List Bool) (flg_static : Bool)
    (bodyexclude : Int) (i : ℕ) : Bool :=
  geomFilterBase m flg_static bodyexclude i &&
  (geomgroup.isEmpty ||
    (geomgroup.getD (groupIndex (m.geom_group.getD i 0)) false))

/-- The fancy index `geomgroup[np.clip(m.geom_group, 0, mjNGROUP)]` raises
`IndexError` when any geom's clipped group reaches past the mask's length;
numpy evaluates it for every geom regardless of the other filter factors. -/
def groupIndexError (m : Model) (geomgroup : List Bool) : Bool :=
  !geomgroup.isEmpty &&
  (List.range m.ngeom).any
    (fun i => decide (geomgroup.length ≤ groupIndex (m.geom_group.getD i 0)))

def vec3Zero : Vec3 := ⟨0, 0, 0⟩

/-- Ray origin mapped into geom `i`'s local frame: `xmat.T @ (pnt - xpos)`. -/
def localPnt (d : Data) (pnt : Vec3) (i : ℕ) : Vec3 :=
  (d.geom_xmat.getD i mat3Id).tmulv (pnt.sub (d.geom_xpos.getD i vec3Zero))

/-- Ray direction mapped into geom `i`'s local frame: `xmat.T @ vec`. -/
def localVec (d : Data) (vec : Vec3) (i : ℕ) : Vec3 :=
  (d.geom_xmat.getD i mat3Id).tmulv vec

/-- `np.nonzero(geom_filter & (m.geom_type == geom_type))`: the ids of the
eligible geoms of one type, in ascending order. -/
def typeIds (m : Model) (gg : List Bool) (fs : Bool) (be : Int) (t : GeomType) : List ℕ :=
  (List.range m.ngeom).filter
    (fun i => geomFilter m gg fs be i && decide (m.geom_type.getD i GeomType.MESH = t))

/-- The concatenated `(id, dist)` candidates, in the source's order: the
`_RAY_FUNC` types in dispatch order, ascending geom id within each type. -/
def rayCandidates (m : Model) (d : Data) (pnt vec : Vec3) (gg : List Bool)
    (fs : Bool) (be : Int) : List (ℕ × RQ) :=
  RAY_FUNC.flatMap (fun tf =>
    (typeIds m gg fs be tf.1).map (fun i =>
      (i, tf.2 (m.geom_size.getD i vec3Zero) (localPnt d pnt i) (localVec d vec i))))

/-- One step of the first-minimum scan: strict improvement moves the best. -/
def argminStep (acc : ℕ × ℕ × RQ) (v : RQ) : ℕ × ℕ × RQ :=
  if RQ.lt v acc.2.2 then (acc.1 + 1, acc.1, v) else (acc.1 + 1, acc.2.1, acc.2.2)

/-- `jnp.argmin`: the index of the first occurrence of the minimum (for
`nan`-free input). -/
def argminFirst (l : List RQ) : ℕ := (l.foldl argminStep (0, 0, RQ.pinf)).2.1

/-- `v` is finite or `+inf` (the shapes a solver result can take). -/
def RQ.IsFP (v : RQ) : Prop := v = RQ.pinf ∨ ∃ q, v = RQ.fin q

/-- Embeds the entry point `ray`.  Returns `(dist, id)`; the `Except` layer
carries the one failure numpy can raise here, the out-of-bounds group-mask
lookup. -/
def ray (m : Model) (d : Data) (pnt vec : Vec3) (geomgroup : List Bool)
    (flg_static : Bool) (bodyexclude : Int) : Except String (RQ × Int) :=
  if groupIndexError m geomgroup then .error "IndexError"
  else
    let cands := rayCandidates m d pnt vec geomgroup flg_static bodyexclude
    if cands.isEmpty then .ok (RQ.fin (-1), -1)
    else
      let dists := cands.map Prod.snd
      let k := argminFirst dists
      let dmin := dists.getD k RQ.pinf
      let dist := if RQ.isinf dmin then RQ.fin (-1) else dmin
      let gid : Int := if RQ.isinf dmin then -1 else ((cands.map Prod.fst).getD k 0 : ℕ)
      .ok (dist, gid)

/-- `v` is one of the three non-finite values. -/
def RQ.NotFin (v : RQ) : Prop := v = RQ.pinf ∨ v = RQ.ninf ∨ v = RQ.nan

/-- Invariant of the `argminStep` scan over the processed prefix `p`: either
the best-so-far `(bi, bv)` is a first-minimum of `p`, or nothing was
processed yet. -/
def ArgInv (p : List RQ) (bi : ℕ) (bv : RQ) : Prop :=
  (bi < p.length ∧ p.getD bi RQ.nan = bv ∧ bv ≠ RQ.nan ∧
    (∀ j < p.length, RQ.le bv (p.getD j RQ.nan) = true) ∧
    (∀ j < bi, RQ.lt bv (p.getD j RQ.nan) = true)) ∨
  (p = [] ∧ bi = 0 ∧ bv = RQ.pinf)

/-- Follows the spec's words for the sphere solver (take the smaller valid
root; if invalid, take the larger; result: chosen root or sentinel, a root
being invalid when the discriminant is below the epsilon or the root is
negative). -/
def sphereSpec (size pnt vec : Vec3) : RQ :=
  let a := vec.dot vec
  let b := vec.dot pnt
  let c := pnt.dot pnt - size.x * size.x
  let det := b * b - a * c
  let r0 := (-b - sqrtq det) / a
  let r1 := (-b + sqrtq det) / a
  if det < mjMINVAL then RQ.pinf
  else if 0 ≤ r0 then RQ.fin r0
  else if 0 ≤ r1 then RQ.fin r1
  else RQ.pinf

/-- Follows the spec's words for one capsule cap check: the candidate root is
accepted only when its z-side condition holds AND it is strictly smaller than
the running best. -/
def capAccept (best cand : RQ) (zcond : Bool) : RQ :=
  if zcond && RQ.lt cand best then cand else best

/-- Follows the spec's words for the capsule solver: the running best starts
from the cylindrical-side result (side root rejected when the hit |z| exceeds
the half-length), then the two top-cap roots are checked (hit z at or above
the half-length, strict improvement), then the two bottom-cap roots (hit z at
or below minus the half-length, strict improvement). -/
def capsuleSpec (size pnt vec : Vec3) : RQ :=
  let hitz : RQ → RQ := fun x => RQ.add (RQ.fin pnt.z) (RQ.mul x (RQ.fin vec.z))
  let rside := ray_quad (vec.x * vec.x + vec.y * vec.y) (vec.x * pnt.x + vec.y * pnt.y)
    (pnt.x * pnt.x + pnt.y * pnt.y - size.x * size.x)
  let sideSel := if RQ.isinf rside.1 then rside.2 else rside.1
  let side := if RQ.le (RQ.abs (hitz sideSel)) (RQ.fin size.y) then sideSel else RQ.pinf
  let dif := pnt.sub ⟨0, 0, size.y⟩
  let rtop := ray_quad (vec.dot vec) (vec.dot dif) (dif.dot dif - size.x * size.x)
  let dif2 : Vec3 := ⟨pnt.x + 0, pnt.y + 0, pnt.z + size.y⟩
  let rbot := ray_quad (vec.dot vec) (vec.dot dif2) (dif2.dot dif2 - size.x * size.x)
  let b1 := capAccept side rtop.1 (RQ.le (RQ.fin size.y) (hitz rtop.1))
  let b2 := capAccept b1 rtop.2 (RQ.le (RQ.fin size.y) (hitz rtop.2))
  let b3 := capAccept b2 rbot.1 (RQ.le (hitz rbot.1) (RQ.fin (-size.y)))
  capAccept b3 rbot.2 (RQ.le (hitz rbot.2) (RQ.fin (-size.y)))

/-- Follows the spec's words for one box face: the solution of
`pnt[i] + x*vec[i] = s*size[i]` (when the face's normal direction component is
nonzero, so the equation has a unique solution), kept when the hit point's
coordinates on the other two axes both lie within their half-extents. -/
def boxSpecCand (size pnt vec : Vec3) (f : ℕ × ℚ × ℕ × ℕ) : Option ℚ :=
  if vec.nth f.1 ≠ 0 then
    let x := (f.2.1 * size.nth f.1 - pnt.nth f.1) / vec.nth f.1
    if |pnt.nth f.2.2.1 + x * vec.nth f.2.2.1| ≤ size.nth f.2.2.1 ∧
        |pnt.nth f.2.2.2 + x * vec.nth f.2.2.2| ≤ size.nth f.2.2.2 then some x else none
  else none

/-- Follows the spec's words for the box solver: the minimum valid `x` over
the six faces, or the sentinel when no candidate is valid. -/
def boxSpec (size pnt vec : Vec3) : RQ :=
  match boxFaces.filterMap (boxSpecCand size pnt vec) with
  | [] => RQ.pinf
  | q :: t => RQ.fin (t.foldl min q)

/-! ### Concrete scenes used by witnesses and counterexamples -/

/-- Identity frame data for a one-geom scene. -/
def dataId1 : Data := { geom_xpos := [vec3Zero], geom_xmat := [mat3Id] }

/-- Identity frame data for a two-geom scene. -/
def dataId2 : Data := { geom_xpos := [vec3Zero, vec3Zero], geom_xmat := [mat3Id, mat3Id] }

/-- A single visible unit box at the origin. -/
def modelBox : Model :=
  { geom_bodyid := [0], geom_matid := [-1], geom_rgba_a := [1], geom_group := [0],
    geom_type := [GeomType.BOX], geom_size := [⟨1, 1, 1⟩],
    mat_rgba_a := fun _ => 1, body_weldid := fun _ => 0 }

/-- A visible mesh geom (id 0) and a visible unit sphere (id 1), both at the
origin. -/
def modelMeshSphere : Model :=
  { geom_bodyid := [0, 0], geom_matid := [-1, -1], geom_rgba_a := [1, 1],
    geom_group := [0, 0], geom_type := [GeomType.MESH, GeomType.SPHERE],
    geom_size := [⟨1, 1, 1⟩, ⟨1, 0, 0⟩],
    mat_rgba_a := fun _ => 1, body_weldid := fun _ => 0 }

/-- A single visible sphere whose group tag 7 lies past the last valid group
index. -/
def modelGroup7 : Model :=
  { geom_bodyid := [0], geom_matid := [-1], geom_rgba_a := [1], geom_group := [7],
    geom_type := [GeomType.SPHERE], geom_size := [⟨1, 0, 0⟩],
    mat_rgba_a := fun _ => 1, body_weldid := fun _ => 0 }

/-- Frames for the tie scene: geom 0 at the origin, geom 1 at `(0,0,-2)`. -/
def dataTie : Data :=
  { geom_xpos := [⟨0, 0, 0⟩, ⟨0, 0, -2⟩], geom_xmat := [mat3Id, mat3Id] }

/-- Tie scene: a unit box (id 0) at the origin and a radius-3 sphere (id 1)
centered at `(0,0,-2)`; the ray from `(0,0,5)` down the z-axis hits both at
distance 4. -/
def modelTie : Model :=
  { geom_bodyid := [0, 0], geom_matid := [-1, -1], geom_rgba_a := [1, 1],
    geom_group := [0, 0], geom_type := [GeomType.BOX, GeomType.SPHERE],
    geom_size := [⟨1, 1, 1⟩, ⟨3, 0, 0⟩],
    mat_rgba_a := fun _ => 1, body_weldid := fun _ => 0 }

/-! ### Order lemmas for `RQ` -/

theorem RQ.IsFP.ne_nan {v : RQ} (h : RQ.IsFP v) : v ≠ RQ.nan := by
  rcases h with h | ⟨q, h⟩ <;> simp [h]

theorem RQ.le_of_lt {a b : RQ} (h : RQ.lt a b = true) : RQ.le a b = true := by
  cases a <;> cases b <;> simp_all [RQ.lt, RQ.le] <;> linarith

theorem RQ.lt_of_lt_of_le {a b c : RQ} (h1 : RQ.lt a b = true)
    (h2 : RQ.le b c = true) : RQ.lt a c = true := by
  cases a <;> cases b <;> cases c <;> simp_all [RQ.lt, RQ.le] <;> linarith

theorem RQ.le_trans {a b c : RQ} (h1 : RQ.le a b = true)
    (h2 : RQ.le b c = true) : RQ.le a c = true := by
  cases a <;> cases b <;> cases c <;> simp_all [RQ.lt, RQ.le] <;> linarith

theorem RQ.le_of_not_lt {a b : RQ} (ha : a ≠ RQ.nan) (hb : b ≠ RQ.nan)
    (h : RQ.lt a b = false) : RQ.le b a = true := by
  cases a <;> cases b <;> simp_all [RQ.lt, RQ.le] <;> linarith

theorem RQ.le_refl {a : RQ} (ha : a ≠ RQ.nan) : RQ.le a a = true := by
  cases a <;> simp_all [RQ.le]

theorem RQ.eq_pinf_of_not_lt_pinf {v : RQ} (hv : v ≠ RQ.nan)
    (h : RQ.lt v RQ.pinf = false) : v = RQ.pinf := by
  cases v <;> simp_all [RQ.lt]

/-! ### Solver results are finite or `+inf` -/

theorem sq2_eq_zero {x y : ℚ} (h : x * x + y * y = 0) : x = 0 ∧ y = 0 := by
  constructor <;> nlinarith [mul_self_nonneg x, mul_self_nonneg y, mul_self_nonneg (x + y)]

theorem sq3_eq_zero {x y z : ℚ} (h : x * x + y * y + z * z = 0) :
    x = 0 ∧ y = 0 ∧ z = 0 := by
  refine ⟨?_, ?_, ?_⟩ <;>
    nlinarith [mul_self_nonneg x, mul_self_nonneg y, mul_self_nonneg z]

theorem mjMINVAL_pos : 0 < mjMINVAL := by norm_num [mjMINVAL]

theorem ray_quad_fp {a b c : ℚ} (h : a = 0 → b = 0) :
    RQ.IsFP (ray_quad a b c).1 ∧ RQ.IsFP (ray_quad a b c).2 := by
  unfold ray_quad
  by_cases hdet : b * b - a * c < mjMINVAL
  · simp [hdet, RQ.IsFP]
  · have ha : a ≠ 0 := by
      intro ha0
      exact hdet (by simpa [ha0, h ha0] using mjMINVAL_pos)
    have hdet0 : ¬(b * b - a * c < 0) := fun hc =>
      hdet (lt_trans hc mjMINVAL_pos)
    simp only [RQ.sqrt, if_neg hdet0, RQ.sub, RQ.add, RQ.neg, RQ.div, if_neg ha]
    constructor
    · by_cases hx : RQ.lt (RQ.fin ((-b + -sqrtq (b * b - a * c)) / a)) (RQ.fin 0) = true <;>
        simp [hdet, hx, RQ.IsFP]
    · by_cases hx : RQ.lt (RQ.fin ((-b + sqrtq (b * b - a * c)) / a)) (RQ.fin 0) = true <;>
        simp [hdet, hx, RQ.IsFP]

theorem RQ.isFP_ite (b : Bool) {u v : RQ} (hu : RQ.IsFP u) (hv : RQ.IsFP v) :
    RQ.IsFP (if b then u else v) := by
  cases b <;> simpa

theorem RQ.isFP_fin (q : ℚ) : RQ.IsFP (RQ.fin q) := Or.inr ⟨q, rfl⟩

theorem RQ.isFP_pinf : RQ.IsFP RQ.pinf := Or.inl rfl

theorem ray_plane_fp (size pnt vec : Vec3) : RQ.IsFP (ray_plane size pnt vec) := by
  unfold ray_plane
  by_cases hz : vec.z ≤ -mjMINVAL
  · have hz0 : vec.z ≠ 0 := by
      intro h0
      rw [h0] at hz
      have := mjMINVAL_pos
      linarith
    simp only [RQ.div, if_neg hz0]
    exact RQ.isFP_ite _ (RQ.isFP_fin _) RQ.isFP_pinf
  · simp [hz, RQ.IsFP]

theorem ray_sphere_fp (size pnt vec : Vec3) : RQ.IsFP (ray_sphere size pnt vec) := by
  unfold ray_sphere
  have h := ray_quad_fp (a := vec.dot vec) (b := vec.dot pnt)
    (c := pnt.dot pnt - size.x * size.x) (fun h0 => by
      obtain ⟨hx, hy, hz⟩ := sq3_eq_zero (by simpa [Vec3.dot] using h0)
      simp [Vec3.dot, hx, hy, hz])
  exact RQ.isFP_ite _ h.2 h.1

theorem ray_capsule_fp (size pnt vec : Vec3) : RQ.IsFP (ray_capsule size pnt vec) := by
  unfold ray_capsule
  have hside := ray_quad_fp (a := vec.x * vec.x + vec.y * vec.y)
    (b := vec.x * pnt.x + vec.y * pnt.y)
    (c := pnt.x * pnt.x + pnt.y * pnt.y - size.x * size.x) (fun h0 => by
      obtain ⟨hx, hy⟩ := sq2_eq_zero h0
      simp [hx, hy])
  have hvz : (vec.dot vec = 0) → ∀ w : Vec3, vec.dot w = 0 := fun h0 w => by
    obtain ⟨hx, hy, hz⟩ := sq3_eq_zero (by simpa [Vec3.dot] using h0)
    simp [Vec3.dot, hx, hy, hz]
  have hcap1 := ray_quad_fp (a := vec.dot vec)
    (b := vec.dot (pnt.sub ⟨0, 0, size.y⟩))
    (c := (pnt.sub ⟨0, 0, size.y⟩).dot (pnt.sub ⟨0, 0, size.y⟩) - size.x * size.x)
    (fun h0 => hvz h0 _)
  have hcap2 := ray_quad_fp (a := vec.dot vec)
    (b := vec.dot ⟨pnt.x + 0, pnt.y + 0, pnt.z + size.y⟩)
    (c := Vec3.dot ⟨pnt.x + 0, pnt.y + 0, pnt.z + size.y⟩ ⟨pnt.x + 0, pnt.y + 0, pnt.z + size.y⟩ - size.x * size.x)
    (fun h0 => hvz h0 _)
  exact RQ.isFP_ite _ hcap2.2 (RQ.isFP_ite _ hcap2.1 (RQ.isFP_ite _ hcap1.2
    (RQ.isFP_ite _ hcap1.1 (RQ.isFP_ite _
      (RQ.isFP_ite _ hside.2 hside.1) RQ.isFP_pinf))))

theorem RQ.notFin_div_zero (n : ℚ) : RQ.NotFin (RQ.div (RQ.fin n) (RQ.fin 0)) := by
  rcases lt_trichotomy n 0 with h | h | h
  · have h2 : ¬0 < n := by linarith
    simp [RQ.div, RQ.NotFin, h, h2]
  · simp [RQ.div, RQ.NotFin, h]
  · have h2 : ¬n < 0 := by linarith
    simp [RQ.div, RQ.NotFin, h, h2]

theorem RQ.notFin_mul_fin {x : RQ} (h : RQ.NotFin x) (v : ℚ) :
    RQ.NotFin (RQ.mul x (RQ.fin v)) := by
  rcases lt_trichotomy v 0 with hv | hv | hv
  · have h2 : ¬0 < v := by linarith
    rcases h with h | h | h <;> subst h <;> simp [RQ.mul, RQ.NotFin, hv, h2]
  · rcases h with h | h | h <;> subst h <;> simp [RQ.mul, RQ.NotFin, hv]
  · have h2 : ¬v < 0 := by linarith
    rcases h with h | h | h <;> subst h <;> simp [RQ.mul, RQ.NotFin, hv, h2]

theorem RQ.notFin_add_fin {y : RQ} (p : ℚ) (h : RQ.NotFin y) :
    RQ.NotFin (RQ.add (RQ.fin p) y) := by
  rcases h with h | h | h <;> subst h <;> simp [RQ.add, RQ.NotFin]

theorem RQ.le_abs_notFin {y : RQ} (h : RQ.NotFin y) (s : ℚ) :
    RQ.le (RQ.abs y) (RQ.fin s) = false := by
  rcases h with h | h | h <;> subst h <;> simp [RQ.abs, RQ.le]

theorem boxEntry_fp (size pnt vec : Vec3) (f : ℕ × ℚ × ℕ × ℕ) :
    RQ.IsFP (boxEntry size pnt vec f) := by
  unfold boxEntry
  by_cases hv0 : vec.nth f.1 = 0
  · have hx : RQ.NotFin (RQ.div (RQ.fin (f.2.1 * size.nth f.1 - pnt.nth f.1)) (RQ.fin (vec.nth f.1))) := by
      rw [hv0]
      exact RQ.notFin_div_zero _
    have hp0 : RQ.le (RQ.abs (RQ.add (RQ.fin (pnt.nth f.2.2.1))
        (RQ.mul (RQ.div (RQ.fin (f.2.1 * size.nth f.1 - pnt.nth f.1)) (RQ.fin (vec.nth f.1)))
          (RQ.fin (vec.nth f.2.2.1))))) (RQ.fin (size.nth f.2.2.1)) = false :=
      RQ.le_abs_notFin (RQ.notFin_add_fin _ (RQ.notFin_mul_fin hx _)) _
    simp [hp0, RQ.IsFP]
  · simp only [RQ.div, if_neg hv0]
    exact RQ.isFP_ite _ (RQ.isFP_fin _) RQ.isFP_pinf

theorem RQ.isFP_min2 {a b : RQ} (ha : RQ.IsFP a) (hb : RQ.IsFP b) :
    RQ.IsFP (RQ.min2 a b) := by
  have hna := ha.ne_nan
  have hnb := hb.ne_nan
  cases a <;> cases b <;> simp_all [RQ.min2] <;>
    exact RQ.isFP_ite _ hb ha

theorem rqMinList_fp (l : List RQ) (h : ∀ v ∈ l, RQ.IsFP v) : RQ.IsFP (rqMinList l) := by
  suffices hgen : ∀ acc : RQ, RQ.IsFP acc → RQ.IsFP (l.foldl RQ.min2 acc) from
    hgen RQ.pinf RQ.isFP_pinf
  induction l with
  | nil => intro acc hacc; simpa using hacc
  | cons v t ih =>
    intro acc hacc
    simp only [List.foldl_cons]
    exact ih (fun w hw => h w (List.mem_cons_of_mem _ hw))
      _ (RQ.isFP_min2 hacc (h v (List.mem_cons_self _ _)))

theorem ray_box_fp (size pnt vec : Vec3) : RQ.IsFP (ray_box size pnt vec) := by
  unfold ray_box
  refine rqMinList_fp _ (fun v hv => ?_)
  obtain ⟨f, _, rfl⟩ := List.mem_map.mp hv
  exact boxEntry_fp size pnt vec f

theorem rayCandidates_fp (m : Model) (d : Data) (pnt vec : Vec3) (gg : List Bool)
    (fs : Bool) (be : Int) :
    ∀ c ∈ rayCandidates m d pnt vec gg fs be, RQ.IsFP c.2 := by
  intro c hc
  unfold rayCandidates at hc
  rw [List.mem_flatMap] at hc
  obtain ⟨tf, htf, hc⟩ := hc
  obtain ⟨i, _, rfl⟩ := List.mem_map.mp hc
  simp only [RAY_FUNC, List.mem_cons, List.not_mem_nil, or_false] at htf
  rcases htf with h | h | h | h <;> subst h
  · exact ray_plane_fp _ _ _
  · exact ray_sphere_fp _ _ _
  · exact ray_capsule_fp _ _ _
  · exact ray_box_fp _ _ _

/-! ### `argminFirst` returns the first index attaining the minimum -/

theorem getD_concat_length (p : List RQ) (v : RQ) (d : RQ) :
    (p ++ [v]).getD p.length d = v := by
  simp [List.getD_eq_getElem?_getD, List.getElem?_append_right, le_refl]

theorem getD_concat_lt (p : List RQ) (v : RQ) (d : RQ) (j : ℕ) (hj : j < p.length) :
    (p ++ [v]).getD j d = p.getD j d := by
  simp [List.getD_eq_getElem?_getD, List.getElem?_append, hj]

theorem argInv_step {p : List RQ} {bi : ℕ} {bv : RQ} (v : RQ)
    (hv : v ≠ RQ.nan) (hinv : ArgInv p bi bv) :
    ArgInv (p ++ [v])
      (if RQ.lt v bv then p.length else bi)
      (if RQ.lt v bv then v else bv) := by
  by_cases hlt : RQ.lt v bv = true
  · simp only [hlt, if_pos]
    left
    refine ⟨by simp, getD_concat_length p v _, hv, ?_, ?_⟩
    · intro j hj
      rcases Nat.lt_succ_iff_lt_or_eq.mp (by simpa using hj) with hj' | hj'
      · rw [getD_concat_lt p v _ j hj']
        rcases hinv with ⟨_, _, _, hle, _⟩ | ⟨hp, _, hbv⟩
        · exact RQ.le_trans (RQ.le_of_lt hlt) (hle j hj')
        · exact absurd hj' (by simp [hp])
      · rw [hj', getD_concat_length p v _]
        exact RQ.le_refl hv
    · intro j hj
      rw [getD_concat_lt p v _ j hj]
      rcases hinv with ⟨_, _, _, hle, _⟩ | ⟨hp, _, hbv⟩
      · exact RQ.lt_of_lt_of_le hlt (hle j hj)
      · exact absurd hj (by simp [hp])
  · have hlt' : RQ.lt v bv = false := by simpa using hlt
    simp only [hlt', Bool.false_eq_true, if_false]
    rcases hinv with ⟨hbi, hget, hnn, hle, hstrict⟩ | ⟨hp, hbi, hbv⟩
    · left
      refine ⟨by simp; omega, ?_, hnn, ?_, ?_⟩
      · rw [getD_concat_lt p v _ bi hbi]; exact hget
      · intro j hj
        rcases Nat.lt_succ_iff_lt_or_eq.mp (by simpa using hj) with hj' | hj'
        · rw [getD_concat_lt p v _ j hj']; exact hle j hj'
        · rw [hj', getD_concat_length p v _]
          exact RQ.le_of_not_lt hv hnn hlt'
      · intro j hj
        rw [getD_concat_lt p v _ j (lt_trans hj hbi)]
        exact hstrict j hj
    · subst hp; subst hbv; subst hbi
      have hvp : v = RQ.pinf := RQ.eq_pinf_of_not_lt_pinf hv hlt'
      left
      refine ⟨by simp, by simp [hvp], by simp, ?_, by omega⟩
      intro j hj
      have hj0 : j = 0 := by simp at hj; omega
      subst hj0
      simp [hvp, RQ.le]

theorem argmin_go (l : List RQ) : ∀ (p : List RQ) (bi : ℕ) (bv : RQ),
    (∀ v ∈ l, v ≠ RQ.nan) → ArgInv p bi bv →
    (l.foldl argminStep (p.length, bi, bv)).1 = p.length + l.length ∧
    ArgInv (p ++ l) (l.foldl argminStep (p.length, bi, bv)).2.1
      (l.foldl argminStep (p.length, bi, bv)).2.2 := by
  induction l with
  | nil => intro p bi bv _ hinv; simpa using hinv
  | cons v t ih =>
    intro p bi bv hnn hinv
    have hv : v ≠ RQ.nan := hnn v (List.mem_cons_self _ _)
    have hstep : argminStep (p.length, bi, bv) v =
        (p.length + 1, if RQ.lt v bv then p.length else bi,
          if RQ.lt v bv then v else bv) := by
      by_cases hlt : RQ.lt v bv = true <;> simp [argminStep, hlt]
    have hlen : p.length + 1 = (p ++ [v]).length := by simp
    have := ih (p ++ [v]) (if RQ.lt v bv then p.length else bi)
      (if RQ.lt v bv then v else bv)
      (fun w hw => hnn w (List.mem_cons_of_mem _ hw))
      (argInv_step v hv hinv)
    rw [List.foldl_cons, hstep, hlen]
    refine ⟨?_, by simpa using this.2⟩
    rw [this.1]
    simp
    omega

theorem argminFirst_spec (l : List RQ) (hl : l ≠ [])
    (hnn : ∀ v ∈ l, v ≠ RQ.nan) :
    argminFirst l < l.length ∧
    (∀ j < l.length,
      RQ.le (l.getD (argminFirst l) RQ.nan) (l.getD j RQ.nan) = true) ∧
    (∀ j < argminFirst l,
      RQ.lt (l.getD (argminFirst l) RQ.nan) (l.getD j RQ.nan) = true) := by
  have h := argmin_go l [] 0 RQ.pinf hnn (Or.inr ⟨rfl, rfl, rfl⟩)
  simp only [List.length_nil, List.nil_append] at h
  rcases h.2 with ⟨hk, hget, _, hle, hstrict⟩ | ⟨hnil, _, _⟩
  · exact ⟨hk, by rw [argminFirst, hget]; exact hle,
      by rw [argminFirst, hget]; exact hstrict⟩
  · exact absurd hnil hl

/-! ### Claim C6: plane solver characterization -/

/-- Claim C6: for every local-frame ray and plane with half-extents
`size[0:2]`, the plane solver returns `x = -pnt.z / vec.z` exactly when
(i) `vec.z` is negative beyond the epsilon threshold (`vec.z <= -mjMINVAL`),
(ii) `x >= 0`, and (iii) on each axis with a positive half-extent the hit
point's coordinate lies within that half-extent (a non-positive half-extent
imposing no bound); otherwise it returns the sentinel. -/
theorem ray_plane_characterization (size pnt vec : Vec3) :
    ray_plane size pnt vec =
      if vec.z ≤ -mjMINVAL ∧ 0 ≤ -pnt.z / vec.z ∧
          (0 < size.x → |pnt.x + -pnt.z / vec.z * vec.x| ≤ size.x) ∧
          (0 < size.y → |pnt.y + -pnt.z / vec.z * vec.y| ≤ size.y)
      then RQ.fin (-pnt.z / vec.z) else RQ.pinf := by
  unfold ray_plane
  by_cases hz : vec.z ≤ -mjMINVAL
  · have hz0 : vec.z ≠ 0 := by
      intro h0; rw [h0] at hz; have := mjMINVAL_pos; linarith
    simp only [RQ.div, if_neg hz0, RQ.mul, RQ.add, RQ.abs, RQ.le]
    refine if_congr ?_ rfl rfl
    simp only [Bool.and_eq_true, Bool.or_eq_true, decide_eq_true_eq]
    simp only [← not_le]
    tauto
  · have hns : ¬(vec.z ≤ -mjMINVAL ∧ 0 ≤ -pnt.z / vec.z ∧
        (0 < size.x → |pnt.x + -pnt.z / vec.z * vec.x| ≤ size.x) ∧
        (0 < size.y → |pnt.y + -pnt.z / vec.z * vec.y| ≤ size.y)) := fun h => hz h.1
    simp [hz, hns]

/-! ### Claims C7, C5, C4: sphere, capsule and box solvers -/

theorem sqrtq_nonneg (q : ℚ) : 0 ≤ sqrtq q := by
  unfold sqrtq
  positivity

theorem dot_self_nonneg (v : Vec3) : 0 ≤ v.dot v := by
  unfold Vec3.dot
  nlinarith [mul_self_nonneg v.x, mul_self_nonneg v.y, mul_self_nonneg v.z]

theorem ray_sphere_eq_sphereSpec (size pnt vec : Vec3) :
    ray_sphere size pnt vec = sphereSpec size pnt vec := by
  unfold ray_sphere sphereSpec ray_quad
  by_cases hdet : vec.dot pnt * vec.dot pnt - vec.dot vec * (pnt.dot pnt - size.x * size.x) < mjMINVAL
  · simp [hdet, RQ.isinf]
  · have ha : vec.dot vec ≠ 0 := by
      intro ha0
      obtain ⟨hx, hy, hz⟩ := sq3_eq_zero (by simpa [Vec3.dot] using ha0)
      apply hdet
      simp [Vec3.dot, hx, hy, hz, ha0]
      exact mjMINVAL_pos
    have hd0 : ¬(vec.dot pnt * vec.dot pnt - vec.dot vec * (pnt.dot pnt - size.x * size.x) < 0) :=
      fun h => hdet (lt_trans h mjMINVAL_pos)
    simp only [RQ.sqrt, if_neg hd0, RQ.sub, RQ.add, RQ.neg, RQ.div, if_neg ha, hdet,
      decide_eq_true_eq, RQ.lt, RQ.isinf, ← sub_eq_add_neg]
    by_cases h0 : (-(vec.dot pnt) - sqrtq (vec.dot pnt * vec.dot pnt - vec.dot vec * (pnt.dot pnt - size.x * size.x))) / vec.dot vec < 0
    · by_cases h1 : (-(vec.dot pnt) + sqrtq (vec.dot pnt * vec.dot pnt - vec.dot vec * (pnt.dot pnt - size.x * size.x))) / vec.dot vec < 0
      · simp [h0, h1, RQ.isinf, not_le.mpr h0, not_le.mpr h1]
      · simp [h0, h1, RQ.isinf, not_le.mpr h0, not_lt.mp h1]
    · simp [h0, RQ.isinf, not_lt.mp h0]

/-- Claim C7: the sphere solver builds the quadratic from `vec.vec`,
`vec.pnt`, `pnt.pnt - r^2` and returns the smaller root when valid, otherwise
the larger root, otherwise the sentinel (`sphereSpec`, stated for every
input); and for a ray whose origin lies inside the sphere (negative `c`),
with a well-posed discriminant and an exact square root, the smaller root is
negative (hence invalidated) and the solver returns the nonnegative
exit-point root. -/
theorem ray_sphere_root_selection (size pnt vec : Vec3)
    (hc : pnt.dot pnt - size.x * size.x < 0)
    (hdet : mjMINVAL ≤ vec.dot pnt * vec.dot pnt -
      vec.dot vec * (pnt.dot pnt - size.x * size.x))
    (hs : sqrtq (vec.dot pnt * vec.dot pnt - vec.dot vec * (pnt.dot pnt - size.x * size.x)) *
        sqrtq (vec.dot pnt * vec.dot pnt - vec.dot vec * (pnt.dot pnt - size.x * size.x)) =
        vec.dot pnt * vec.dot pnt - vec.dot vec * (pnt.dot pnt - size.x * size.x)) :
    (∀ s' p' v' : Vec3, ray_sphere s' p' v' = sphereSpec s' p' v') ∧
    (-(vec.dot pnt) - sqrtq (vec.dot pnt * vec.dot pnt -
      vec.dot vec * (pnt.dot pnt - size.x * size.x))) / vec.dot vec < 0 ∧
    ray_sphere size pnt vec =
      RQ.fin ((-(vec.dot pnt) + sqrtq (vec.dot pnt * vec.dot pnt -
        vec.dot vec * (pnt.dot pnt - size.x * size.x))) / vec.dot vec) ∧
    0 ≤ (-(vec.dot pnt) + sqrtq (vec.dot pnt * vec.dot pnt -
      vec.dot vec * (pnt.dot pnt - size.x * size.x))) / vec.dot vec := by
  have ha0 : 0 ≤ vec.dot vec := dot_self_nonneg vec
  have ha : vec.dot vec ≠ 0 := by
    intro h0
    obtain ⟨hx, hy, hz⟩ := sq3_eq_zero (by simpa [Vec3.dot] using h0)
    have hb : vec.dot pnt = 0 := by simp [Vec3.dot, hx, hy, hz]
    rw [h0, hb] at hdet
    simp at hdet
    have := mjMINVAL_pos
    linarith
  have hapos : 0 < vec.dot vec := lt_of_le_of_ne ha0 (Ne.symm ha)
  have hs0 : 0 ≤ sqrtq (vec.dot pnt * vec.dot pnt -
      vec.dot vec * (pnt.dot pnt - size.x * size.x)) := sqrtq_nonneg _
  have hdet_gt : vec.dot pnt * vec.dot pnt < vec.dot pnt * vec.dot pnt -
      vec.dot vec * (pnt.dot pnt - size.x * size.x) := by nlinarith
  have hsb1 : vec.dot pnt < sqrtq (vec.dot pnt * vec.dot pnt -
      vec.dot vec * (pnt.dot pnt - size.x * size.x)) := by nlinarith
  have hsb2 : -(vec.dot pnt) < sqrtq (vec.dot pnt * vec.dot pnt -
      vec.dot vec * (pnt.dot pnt - size.x * size.x)) := by nlinarith
  have hr0 : (-(vec.dot pnt) - sqrtq (vec.dot pnt * vec.dot pnt -
      vec.dot vec * (pnt.dot pnt - size.x * size.x))) / vec.dot vec < 0 :=
    div_neg_of_neg_of_pos (by linarith) hapos
  have hr1 : 0 ≤ (-(vec.dot pnt) + sqrtq (vec.dot pnt * vec.dot pnt -
      vec.dot vec * (pnt.dot pnt - size.x * size.x))) / vec.dot vec :=
    le_of_lt (div_pos (by linarith) hapos)
  refine ⟨ray_sphere_eq_sphereSpec, hr0, ?_, hr1⟩
  rw [ray_sphere_eq_sphereSpec]
  unfold sphereSpec
  simp [not_lt.mpr hdet, not_le.mpr hr0, hr1]

/-- Witness for C7: a unit ray from the center of a radius-2 sphere exits at
distance 2 (the larger root), via `ray_sphere_root_selection`. -/
theorem ray_sphere_root_selection_witness :
    ray_sphere ⟨2, 0, 0⟩ ⟨0, 0, 0⟩ ⟨0, 0, 1⟩ = RQ.fin 2 := by
  have hq : isqrt 4 = 2 := by decide
  have h := ray_sphere_root_selection ⟨2, 0, 0⟩ ⟨0, 0, 0⟩ ⟨0, 0, 1⟩
    (by norm_num [Vec3.dot])
    (by norm_num [Vec3.dot, mjMINVAL])
    (by norm_num [Vec3.dot, sqrtq, hq, Int.toNat])
  rw [h.2.2.1]
  norm_num [Vec3.dot, sqrtq, hq, Int.toNat]

/-- Claim C5: the capsule solver performs exactly the spec's sequence — start
from the cylindrical-side result, then check the two top-cap roots (hit z at
or above the half-length AND strictly smaller than the current best), then
the two bottom-cap roots (hit z at or below minus the half-length AND
strictly smaller) — and the acceptance test is strict, so a cap candidate
exactly tying the current best leaves the best unchanged. -/
theorem ray_capsule_sequencing (size pnt vec : Vec3) :
    ray_capsule size pnt vec = capsuleSpec size pnt vec ∧
    ∀ (best : RQ) (zc : Bool), capAccept best best zc = best := by
  constructor
  · rfl
  · intro best zc
    unfold capAccept
    exact ite_self best

theorem boxEntry_zero (size pnt vec : Vec3) (f : ℕ × ℚ × ℕ × ℕ)
    (hv0 : vec.nth f.1 = 0) : boxEntry size pnt vec f = RQ.pinf := by
  unfold boxEntry
  have hx : RQ.NotFin (RQ.div (RQ.fin (f.2.1 * size.nth f.1 - pnt.nth f.1)) (RQ.fin (vec.nth f.1))) := by
    rw [hv0]; exact RQ.notFin_div_zero _
  have hp0 : RQ.le (RQ.abs (RQ.add (RQ.fin (pnt.nth f.2.2.1))
      (RQ.mul (RQ.div (RQ.fin (f.2.1 * size.nth f.1 - pnt.nth f.1)) (RQ.fin (vec.nth f.1)))
        (RQ.fin (vec.nth f.2.2.1))))) (RQ.fin (size.nth f.2.2.1)) = false :=
    RQ.le_abs_notFin (RQ.notFin_add_fin _ (RQ.notFin_mul_fin hx _)) _
  simp [hp0]

theorem boxEntry_nonzero (size pnt vec : Vec3) (f : ℕ × ℚ × ℕ × ℕ)
    (hv0 : vec.nth f.1 ≠ 0) :
    boxEntry size pnt vec f =
      if |pnt.nth f.2.2.1 + (f.2.1 * size.nth f.1 - pnt.nth f.1) / vec.nth f.1 * vec.nth f.2.2.1| ≤ size.nth f.2.2.1 ∧
          |pnt.nth f.2.2.2 + (f.2.1 * size.nth f.1 - pnt.nth f.1) / vec.nth f.1 * vec.nth f.2.2.2| ≤ size.nth f.2.2.2
      then RQ.fin ((f.2.1 * size.nth f.1 - pnt.nth f.1) / vec.nth f.1) else RQ.pinf := by
  unfold boxEntry
  simp only [RQ.div, if_neg hv0, RQ.mul, RQ.add, RQ.abs, RQ.le]
  refine if_congr ?_ rfl rfl
  simp [Bool.and_eq_true, decide_eq_true_eq]

theorem min2_fin_fin (m q : ℚ) : RQ.min2 (RQ.fin m) (RQ.fin q) = RQ.fin (min m q) := by
  by_cases h : q < m
  · simp [RQ.min2, RQ.lt, h, min_def, le_of_lt h, not_le.mpr h]
  · simp [RQ.min2, RQ.lt, h, min_def, not_lt.mp h]

theorem min2_fin_pinf (m : ℚ) : RQ.min2 (RQ.fin m) RQ.pinf = RQ.fin m := by
  simp [RQ.min2, RQ.lt]

theorem min2_pinf_pinf : RQ.min2 RQ.pinf RQ.pinf = RQ.pinf := by
  simp [RQ.min2, RQ.lt]

theorem min2_pinf_fin (q : ℚ) : RQ.min2 RQ.pinf (RQ.fin q) = RQ.fin q := by
  simp [RQ.min2, RQ.lt]

theorem foldl_min2_bridge {α : Type} (e : α → RQ) (o : α → Option ℚ)
    (fs : List α)
    (h : ∀ f ∈ fs, (e f = RQ.pinf ∧ o f = none) ∨ (∃ q, e f = RQ.fin q ∧ o f = some q)) :
    ((fs.map e).foldl RQ.min2 RQ.pinf =
      (match fs.filterMap o with
       | [] => RQ.pinf
       | q :: t => RQ.fin (t.foldl min q))) ∧
    (∀ m : ℚ, (fs.map e).foldl RQ.min2 (RQ.fin m) =
      RQ.fin ((fs.filterMap o).foldl min m)) := by
  induction fs with
  | nil => simp
  | cons f t ih =>
    have hf := h f (List.mem_cons_self _ _)
    have iht := ih (fun g hg => h g (List.mem_cons_of_mem _ hg))
    constructor
    · rcases hf with ⟨he, ho⟩ | ⟨q, he, ho⟩
      · simp only [List.map_cons, List.foldl_cons, he, min2_pinf_pinf,
          List.filterMap_cons, ho]
        exact iht.1
      · simp only [List.map_cons, List.foldl_cons, he, min2_pinf_fin,
          List.filterMap_cons, ho]
        exact iht.2 q
    · intro m
      rcases hf with ⟨he, ho⟩ | ⟨q, he, ho⟩
      · simp only [List.map_cons, List.foldl_cons, he, min2_fin_pinf,
          List.filterMap_cons, ho]
        exact iht.2 m
      · simp only [List.map_cons, List.foldl_cons, he, min2_fin_fin,
          List.filterMap_cons, ho, List.foldl_cons]
        exact iht.2 (min m q)

/-- Claim C4: the box solver returns the minimum over the six face candidates
(solutions of `pnt[i] + x*vec[i] = s*size[i]`), a candidate being valid
exactly when the hit point's coordinates on the other two axes lie within
their half-extents inclusive, and the sentinel when no candidate is valid
(`boxSpec` follows the spec's words). -/
theorem ray_box_minimum_valid_face (size pnt vec : Vec3) :
    ray_box size pnt vec = boxSpec size pnt vec := by
  unfold ray_box boxSpec rqMinList
  refine (foldl_min2_bridge (boxEntry size pnt vec) (boxSpecCand size pnt vec) boxFaces
    (fun f _ => ?_)).1
  by_cases hv0 : vec.nth f.1 = 0
  · left
    exact ⟨boxEntry_zero size pnt vec f hv0, by simp [boxSpecCand, hv0]⟩
  · rw [boxEntry_nonzero size pnt vec f hv0]
    by_cases hc : |pnt.nth f.2.2.1 + (f.2.1 * size.nth f.1 - pnt.nth f.1) / vec.nth f.1 * vec.nth f.2.2.1| ≤ size.nth f.2.2.1 ∧
        |pnt.nth f.2.2.2 + (f.2.1 * size.nth f.1 - pnt.nth f.1) / vec.nth f.1 * vec.nth f.2.2.2| ≤ size.nth f.2.2.2
    · right
      exact ⟨(f.2.1 * size.nth f.1 - pnt.nth f.1) / vec.nth f.1,
        by simp [hc], by simp [boxSpecCand, hv0, hc]⟩
    · left
      exact ⟨by simp [hc], by simp [boxSpecCand, hv0, hc]⟩

/-! ### Claim C3: degenerate quadratics -/

/-- Claim C3, amended: at the quadratic's call sites, a vanishing quadratic
coefficient forces a vanishing linear coefficient, and then both roots are
the sentinel (no error, no NaN); hence a zero-length direction makes the
sphere and capsule solvers return the no-hit sentinel.  (For a merely
axis-parallel direction only the capsule's side contribution is the sentinel:
its cap quadratics have nonzero `a` and may still report a genuine hit — see
the counterexample.) -/
theorem ray_quad_degenerate_sentinel (size pnt : Vec3) (c : ℚ) :
    ray_quad 0 0 c = (RQ.pinf, RQ.pinf) ∧
    ray_sphere size pnt ⟨0, 0, 0⟩ = RQ.pinf ∧
    ray_capsule size pnt ⟨0, 0, 0⟩ = RQ.pinf := by
  refine ⟨?_, ?_, ?_⟩
  · norm_num [ray_quad, mjMINVAL]
  · norm_num [ray_sphere, ray_quad, Vec3.dot, RQ.isinf, mjMINVAL]
  · norm_num [ray_capsule, ray_quad, Vec3.dot, Vec3.sub, RQ.isinf, RQ.mul, RQ.add,
      RQ.abs, RQ.le, RQ.lt, mjMINVAL]

/-- Counterexample to C3 as stated: an axis-parallel ray (side quadratic
coefficient `a = 0`) aimed at a capsule from above returns the finite cap-hit
distance 3 for that geometry, not the no-hit sentinel. -/
theorem ray_capsule_axis_parallel_cap_hit :
    (let vec : Vec3 := ⟨0, 0, -1⟩
     vec.x * vec.x + vec.y * vec.y = 0) ∧
    ray_capsule ⟨1, 1, 0⟩ ⟨0, 0, 5⟩ ⟨0, 0, -1⟩ = RQ.fin 3 ∧
    RQ.fin (3 : ℚ) ≠ RQ.pinf := by
  refine ⟨by norm_num, ?_, by simp⟩
  have h : isqrt 1 = 1 := by decide
  norm_num [ray_capsule, ray_quad, Vec3.dot, Vec3.sub, RQ.sqrt, RQ.div, RQ.sub, RQ.add,
    RQ.neg, RQ.mul, RQ.abs, RQ.le, RQ.lt, RQ.isinf, sqrtq, mjMINVAL, h, Int.toNat]

/-! ### Claim C2: return-value contract of the entry point -/

/-- Claim C2 fails on the code (code bug): for a unit box wholly behind the
ray origin, every `x >= 0` check is absent from `_ray_box`, so the entry
point returns the negative distance `-6` paired with the box's id 0 — a
distance neither nonnegative nor the `-1` sentinel, reported for a ray that
intersects nothing. -/
theorem ray_box_behind_origin_negative_distance :
    ray modelBox dataId1 ⟨5, 5, 5⟩ ⟨1, 1, 1⟩ [] true (-1) = .ok (RQ.fin (-6), 0) ∧
    (-6 : ℚ) < 0 ∧ (-6 : ℚ) ≠ -1 := by
  refine ⟨?_, by norm_num, by norm_num⟩
  have t1 : typeIds modelBox [] true (-1) GeomType.PLANE = [] := by decide
  have t2 : typeIds modelBox [] true (-1) GeomType.SPHERE = [] := by decide
  have t3 : typeIds modelBox [] true (-1) GeomType.CAPSULE = [] := by decide
  have t4 : typeIds modelBox [] true (-1) GeomType.BOX = [0] := by decide
  have hl1 : localPnt dataId1 ⟨5, 5, 5⟩ 0 = ⟨5, 5, 5⟩ := by
    norm_num [localPnt, dataId1, Mat3.tmulv, Vec3.sub, mat3Id, vec3Zero, List.getD]
  have hl2 : localVec dataId1 ⟨1, 1, 1⟩ 0 = ⟨1, 1, 1⟩ := by
    norm_num [localVec, dataId1, Mat3.tmulv, mat3Id, List.getD]
  have hsz : (modelBox.geom_size[0]?).getD vec3Zero = ⟨1, 1, 1⟩ := by decide
  have hbox : ray_box ⟨1, 1, 1⟩ ⟨5, 5, 5⟩ ⟨1, 1, 1⟩ = RQ.fin (-6) := by
    norm_num [ray_box, boxFaces, boxEntry, rqMinList, Vec3.nth, RQ.div, RQ.add, RQ.mul,
      RQ.abs, RQ.le, RQ.lt, RQ.min2, List.foldl]
  have hc : rayCandidates modelBox dataId1 ⟨5, 5, 5⟩ ⟨1, 1, 1⟩ [] true (-1) = [(0, RQ.fin (-6))] := by
    simp [rayCandidates, RAY_FUNC, t1, t2, t3, t4, hl1, hl2, hsz, hbox]
  have hg : groupIndexError modelBox [] = false := by decide
  simp [ray, hg, hc, argminFirst, argminStep, RQ.isinf, RQ.lt, List.getD]

/-! ### Claim C8: group-mask clamping -/

/-- Claim C8 fails on the code (code bug): the clamp is
`np.clip(group, 0, mjNGROUP)` whose upper bound is `mjNGROUP = 6`, one past
the last valid group index, so a geometry whose group tag is 7 makes the
lookup into a caller mask of the natural length `mjNGROUP` go out of bounds
and the whole query raise `IndexError` instead of filtering. -/
theorem ray_group_clip_out_of_bounds :
    groupIndex 7 = 6 ∧ mjNGROUP = 6 ∧
    ray modelGroup7 dataId1 ⟨0, 0, 5⟩ ⟨0, 0, -1⟩
      [true, true, true, true, true, true] true (-1) = .error "IndexError" := by
  refine ⟨by decide, by decide, ?_⟩
  have hg : groupIndexError modelGroup7 [true, true, true, true, true, true] = true := by decide
  simp [ray, hg]

/-! ### Claim C1: mesh geometries -/

/-- Claim C1, amended: the dispatch table omits the mesh entry, so mesh
geometries contribute no intersection candidate (every candidate's geom has a
non-mesh type), and whenever the group-mask lookup is in bounds the entry
point returns an ordinary result — no "not implemented" condition ever
reaches the caller. -/
theorem ray_mesh_silently_skipped (m : Model) (d : Data) (pnt vec : Vec3)
    (gg : List Bool) (fs : Bool) (be : Int) :
    (∀ c ∈ rayCandidates m d pnt vec gg fs be,
      m.geom_type.getD c.1 GeomType.MESH ≠ GeomType.MESH) ∧
    (groupIndexError m gg = false → ∃ r, ray m d pnt vec gg fs be = .ok r) := by
  constructor
  · intro c hc
    unfold rayCandidates at hc
    rw [List.mem_flatMap] at hc
    obtain ⟨tf, htf, hc⟩ := hc
    obtain ⟨i, hi, rfl⟩ := List.mem_map.mp hc
    unfold typeIds at hi
    rw [List.mem_filter] at hi
    have ht : m.geom_type.getD i GeomType.MESH = tf.1 := by
      have := hi.2
      simp only [Bool.and_eq_true, decide_eq_true_eq] at this
      exact this.2
    have htne : tf.1 ≠ GeomType.MESH := by
      simp only [RAY_FUNC, List.mem_cons, List.not_mem_nil, or_false] at htf
      rcases htf with h | h | h | h <;> subst h <;> decide
    intro heq
    exact htne (ht.symm.trans heq)
  · intro h
    unfold ray
    rw [h]
    simp only [Bool.false_eq_true, if_false]
    split
    · exact ⟨_, rfl⟩
    · exact ⟨_, rfl⟩

/-- Witness for the amended C1: on the mesh-plus-sphere scene the query
completes normally, via `ray_mesh_silently_skipped`. -/
theorem ray_mesh_silently_skipped_witness :
    ∃ r, ray modelMeshSphere dataId2 ⟨0, 0, 5⟩ ⟨0, 0, -1⟩ [] true (-1) = .ok r :=
  (ray_mesh_silently_skipped modelMeshSphere dataId2 ⟨0, 0, 5⟩ ⟨0, 0, -1⟩ [] true (-1)).2
    (by decide)

/-- Counterexample to C1 as stated: the mesh geom of the scene is eligible
(the visibility filter passes it), yet the entry point signals nothing and
returns the result computed from the remaining sphere alone. -/
theorem ray_mesh_scene_returns_ok :
    geomFilter modelMeshSphere [] true (-1) 0 = true ∧
    modelMeshSphere.geom_type.getD 0 GeomType.MESH = GeomType.MESH ∧
    ray modelMeshSphere dataId2 ⟨0, 0, 5⟩ ⟨0, 0, -1⟩ [] true (-1) = .ok (RQ.fin 4, 1) := by
  refine ⟨by decide, by decide, ?_⟩
  have h : isqrt 1 = 1 := by decide
  have hsph : ray_sphere ⟨1, 0, 0⟩ ⟨0, 0, 5⟩ ⟨0, 0, -1⟩ = RQ.fin 4 := by
    norm_num [ray_sphere, ray_quad, Vec3.dot, RQ.sqrt, RQ.div, RQ.sub, RQ.add, RQ.neg,
      RQ.lt, RQ.isinf, sqrtq, mjMINVAL, h, Int.toNat]
  have t1 : typeIds modelMeshSphere [] true (-1) GeomType.PLANE = [] := by decide
  have t2 : typeIds modelMeshSphere [] true (-1) GeomType.SPHERE = [1] := by decide
  have t3 : typeIds modelMeshSphere [] true (-1) GeomType.CAPSULE = [] := by decide
  have t4 : typeIds modelMeshSphere [] true (-1) GeomType.BOX = [] := by decide
  have hl1 : localPnt dataId2 ⟨0, 0, 5⟩ 1 = ⟨0, 0, 5⟩ := by
    norm_num [localPnt, dataId2, Mat3.tmulv, Vec3.sub, mat3Id, vec3Zero, List.getD]
  have hl2 : localVec dataId2 ⟨0, 0, -1⟩ 1 = ⟨0, 0, -1⟩ := by
    norm_num [localVec, dataId2, Mat3.tmulv, mat3Id, List.getD]
  have hsz : (modelMeshSphere.geom_size[1]?).getD vec3Zero = ⟨1, 0, 0⟩ := by decide
  have hc : rayCandidates modelMeshSphere dataId2 ⟨0, 0, 5⟩ ⟨0, 0, -1⟩ [] true (-1) = [(1, RQ.fin 4)] := by
    simp [rayCandidates, RAY_FUNC, t1, t2, t3, t4, hl1, hl2, hsz, hsph]
  have hg : groupIndexError modelMeshSphere [] = false := by decide
  simp [ray, hg, hc, argminFirst, argminStep, RQ.isinf, RQ.lt, List.getD]

/-! ### Claim C9: determinism -/

/-- Claim C9: the entry point is a pure function of its inputs — two calls
with equal scenes, frames, ray, mask, static flag and excluded body return
equal results.  (The embedding is purely functional because the source
mutates nothing: it only rebinds locals and builds fresh arrays.) -/
theorem ray_deterministic (m1 m2 : Model) (d1 d2 : Data) (pnt1 pnt2 vec1 vec2 : Vec3)
    (gg1 gg2 : List Bool) (fs1 fs2 : Bool) (be1 be2 : Int)
    (hm : m1 = m2) (hd : d1 = d2) (hp : pnt1 = pnt2) (hv : vec1 = vec2)
    (hg : gg1 = gg2) (hf : fs1 = fs2) (hb : be1 = be2) :
    ray m1 d1 pnt1 vec1 gg1 fs1 be1 = ray m2 d2 pnt2 vec2 gg2 fs2 be2 := by
  subst hm; subst hd; subst hp; subst hv; subst hg; subst hf; subst hb
  rfl

/-- Witness for C9 at a concrete scene. -/
theorem ray_deterministic_witness :
    ray modelBox dataId1 ⟨5, 5, 5⟩ ⟨1, 1, 1⟩ [] true (-1) =
      ray modelBox dataId1 ⟨5, 5, 5⟩ ⟨1, 1, 1⟩ [] true (-1) :=
  ray_deterministic modelBox modelBox dataId1 dataId1 ⟨5, 5, 5⟩ ⟨5, 5, 5⟩
    ⟨1, 1, 1⟩ ⟨1, 1, 1⟩ [] [] true true (-1) (-1) rfl rfl rfl rfl rfl rfl rfl

/-! ### Claim C10: first occurrence of the minimum wins -/

theorem getD_stable {α : Type} (l : List α) (j : ℕ) (hj : j < l.length) (d1 d2 : α) :
    l.getD j d1 = l.getD j d2 := by
  rw [List.getD_eq_getElem?_getD, List.getD_eq_getElem?_getD,
    List.getElem?_eq_getElem hj]
  rfl

theorem getD_map_snd (l : List (ℕ × RQ)) (j : ℕ) (hj : j < l.length)
    (d : ℕ × RQ) (dv : RQ) : (l.map Prod.snd).getD j dv = (l.getD j d).2 := by
  rw [List.getD_eq_getElem?_getD, List.getD_eq_getElem?_getD, List.getElem?_map,
    List.getElem?_eq_getElem hj]
  rfl

theorem getD_map_fst (l : List (ℕ × RQ)) (j : ℕ) (hj : j < l.length)
    (d : ℕ × RQ) (dv : ℕ) : (l.map Prod.fst).getD j dv = (l.getD j d).1 := by
  rw [List.getD_eq_getElem?_getD, List.getD_eq_getElem?_getD, List.getElem?_map,
    List.getElem?_eq_getElem hj]
  rfl

/-- Claim C10: when a query returns a hit, the returned id and distance are
the entry of the candidate list at `argminFirst` of the distances; that entry
attains the minimum, every strictly earlier candidate is strictly larger (so
on ties the earliest candidate wins), and the candidate list is the
concatenation over the dispatch-table order (plane, sphere, capsule, box)
with ascending geom ids within each type (`typeIds` filters `List.range`). -/
theorem ray_returns_first_minimum (m : Model) (d : Data) (pnt vec : Vec3)
    (gg : List Bool) (fs : Bool) (be : Int) (dist : RQ) (gid : Int)
    (hok : ray m d pnt vec gg fs be = .ok (dist, gid))
    (hhit : gid ≠ -1) :
    ∃ k, k = argminFirst ((rayCandidates m d pnt vec gg fs be).map Prod.snd) ∧
      k < (rayCandidates m d pnt vec gg fs be).length ∧
      gid = ((rayCandidates m d pnt vec gg fs be).getD k (0, RQ.nan)).1 ∧
      dist = ((rayCandidates m d pnt vec gg fs be).getD k (0, RQ.nan)).2 ∧
      (∀ j < (rayCandidates m d pnt vec gg fs be).length,
        RQ.le dist (((rayCandidates m d pnt vec gg fs be).getD j (0, RQ.nan)).2) = true) ∧
      (∀ j < k, RQ.lt dist (((rayCandidates m d pnt vec gg fs be).getD j (0, RQ.nan)).2) = true) ∧
      rayCandidates m d pnt vec gg fs be = RAY_FUNC.flatMap (fun tf =>
        (typeIds m gg fs be tf.1).map (fun i =>
          (i, tf.2 (m.geom_size.getD i vec3Zero) (localPnt d pnt i) (localVec d vec i)))) := by
  have hfp := rayCandidates_fp m d pnt vec gg fs be
  unfold ray at hok
  by_cases hgerr : groupIndexError m gg = true
  · rw [if_pos hgerr] at hok
    exact absurd hok (by simp)
  · rw [if_neg hgerr] at hok
    by_cases hce : (rayCandidates m d pnt vec gg fs be).isEmpty = true
    · rw [if_pos hce] at hok
      simp only [Except.ok.injEq, Prod.mk.injEq] at hok
      exact absurd hok.2.symm hhit
    · rw [if_neg hce] at hok
      have hnil : (rayCandidates m d pnt vec gg fs be).map Prod.snd ≠ [] := by
        intro h0
        exact hce (by simpa [List.isEmpty_iff, List.map_eq_nil_iff] using h0)
      have hnn : ∀ v ∈ (rayCandidates m d pnt vec gg fs be).map Prod.snd, v ≠ RQ.nan := by
        intro v hv
        obtain ⟨c, hc, rfl⟩ := List.mem_map.mp hv
        exact (hfp c hc).ne_nan
      have hspec := argminFirst_spec _ hnil hnn
      rw [List.length_map] at hspec
      rcases Bool.eq_false_or_eq_true (RQ.isinf (((rayCandidates m d pnt vec gg fs be).map Prod.snd).getD
          (argminFirst ((rayCandidates m d pnt vec gg fs be).map Prod.snd)) RQ.pinf)) with hinf | hinf
      · simp only [hinf, if_true, Except.ok.injEq, Prod.mk.injEq] at hok
        exact absurd hok.2.symm hhit
      · simp only [hinf, Bool.false_eq_true, if_false, Except.ok.injEq, Prod.mk.injEq] at hok
        obtain ⟨hdist, hgid⟩ := hok
        refine ⟨argminFirst ((rayCandidates m d pnt vec gg fs be).map Prod.snd),
          rfl, hspec.1, ?_, ?_, ?_, ?_, rfl⟩
        · exact hgid.symm.trans
            (congrArg (fun n : ℕ => (n : Int)) (getD_map_fst _ _ hspec.1 (0, RQ.nan) 0))
        · rw [← hdist]
          rw [getD_stable _ _ (by rw [List.length_map]; exact hspec.1) RQ.pinf RQ.nan]
          exact getD_map_snd _ _ hspec.1 (0, RQ.nan) RQ.nan
        · intro j hj
          rw [← hdist, getD_stable _ _ (by rw [List.length_map]; exact hspec.1) RQ.pinf RQ.nan]
          have := hspec.2.1 j hj
          rwa [getD_map_snd _ _ hj (0, RQ.nan) RQ.nan] at this
        · intro j hj
          rw [← hdist, getD_stable _ _ (by rw [List.length_map]; exact hspec.1) RQ.pinf RQ.nan]
          have := hspec.2.2 j hj
          rwa [getD_map_snd _ _ (lt_trans hj hspec.1) (0, RQ.nan) RQ.nan] at this

/-- Witness for C10: on the tie scene (box id 0 and sphere id 1 both at
distance 4) the query returns the sphere, whose candidate comes first in the
dispatch-table order, and `ray_returns_first_minimum` applies. -/
theorem ray_returns_first_minimum_witness :
    ray modelTie dataTie ⟨0, 0, 5⟩ ⟨0, 0, -1⟩ [] true (-1) = .ok (RQ.fin 4, 1) ∧
    (∃ k, k = argminFirst ((rayCandidates modelTie dataTie ⟨0, 0, 5⟩ ⟨0, 0, -1⟩ [] true (-1)).map Prod.snd) ∧
      k < (rayCandidates modelTie dataTie ⟨0, 0, 5⟩ ⟨0, 0, -1⟩ [] true (-1)).length ∧
      (1 : Int) = ((rayCandidates modelTie dataTie ⟨0, 0, 5⟩ ⟨0, 0, -1⟩ [] true (-1)).getD k (0, RQ.nan)).1 ∧
      RQ.fin 4 = ((rayCandidates modelTie dataTie ⟨0, 0, 5⟩ ⟨0, 0, -1⟩ [] true (-1)).getD k (0, RQ.nan)).2 ∧
      (∀ j < (rayCandidates modelTie dataTie ⟨0, 0, 5⟩ ⟨0, 0, -1⟩ [] true (-1)).length,
        RQ.le (RQ.fin 4) (((rayCandidates modelTie dataTie ⟨0, 0, 5⟩ ⟨0, 0, -1⟩ [] true (-1)).getD j (0, RQ.nan)).2) = true) ∧
      (∀ j < k, RQ.lt (RQ.fin 4) (((rayCandidates modelTie dataTie ⟨0, 0, 5⟩ ⟨0, 0, -1⟩ [] true (-1)).getD j (0, RQ.nan)).2) = true) ∧
      rayCandidates modelTie dataTie ⟨0, 0, 5⟩ ⟨0, 0, -1⟩ [] true (-1) = RAY_FUNC.flatMap (fun tf =>
        (typeIds modelTie [] true (-1) tf.1).map (fun i =>
          (i, tf.2 (modelTie.geom_size.getD i vec3Zero) (localPnt dataTie ⟨0, 0, 5⟩ i) (localVec dataTie ⟨0, 0, -1⟩ i))))) := by
  have h9 : isqrt 9 = 3 := by decide
  have hsph : ray_sphere ⟨3, 0, 0⟩ ⟨0, 0, 7⟩ ⟨0, 0, -1⟩ = RQ.fin 4 := by
    norm_num [ray_sphere, ray_quad, Vec3.dot, RQ.sqrt, RQ.div, RQ.sub, RQ.add, RQ.neg,
      RQ.lt, RQ.isinf, sqrtq, mjMINVAL, h9, Int.toNat]
  have hbox : ray_box ⟨1, 1, 1⟩ ⟨0, 0, 5⟩ ⟨0, 0, -1⟩ = RQ.fin 4 := by
    norm_num [ray_box, boxFaces, boxEntry, rqMinList, Vec3.nth, RQ.div, RQ.add, RQ.mul,
      RQ.abs, RQ.le, RQ.lt, RQ.min2, List.foldl]
  have t1 : typeIds modelTie [] true (-1) GeomType.PLANE = [] := by decide
  have t2 : typeIds modelTie [] true (-1) GeomType.SPHERE = [1] := by decide
  have t3 : typeIds modelTie [] true (-1) GeomType.CAPSULE = [] := by decide
  have t4 : typeIds modelTie [] true (-1) GeomType.BOX = [0] := by decide
  have hl1 : localPnt dataTie ⟨0, 0, 5⟩ 1 = ⟨0, 0, 7⟩ := by
    norm_num [localPnt, dataTie, Mat3.tmulv, Vec3.sub, mat3Id, List.getD]
  have hl2 : localVec dataTie ⟨0, 0, -1⟩ 1 = ⟨0, 0, -1⟩ := by
    norm_num [localVec, dataTie, Mat3.tmulv, mat3Id, List.getD]
  have hl3 : localPnt dataTie ⟨0, 0, 5⟩ 0 = ⟨0, 0, 5⟩ := by
    norm_num [localPnt, dataTie, Mat3.tmulv, Vec3.sub, mat3Id, List.getD]
  have hl4 : localVec dataTie ⟨0, 0, -1⟩ 0 = ⟨0, 0, -1⟩ := by
    norm_num [localVec, dataTie, Mat3.tmulv, mat3Id, List.getD]
  have hsz1 : (modelTie.geom_size[1]?).getD vec3Zero = ⟨3, 0, 0⟩ := by decide
  have hsz0 : (modelTie.geom_size[0]?).getD vec3Zero = ⟨1, 1, 1⟩ := by decide
  have hc : rayCandidates modelTie dataTie ⟨0, 0, 5⟩ ⟨0, 0, -1⟩ [] true (-1) =
      [(1, RQ.fin 4), (0, RQ.fin 4)] := by
    simp [rayCandidates, RAY_FUNC, t1, t2, t3, t4, hl1, hl2, hl3, hl4, hsz0, hsz1, hsph, hbox]
  have hg : groupIndexError modelTie [] = false := by decide
  have hargmin : argminFirst [RQ.fin 4, RQ.fin 4] = 0 := by
    norm_num [argminFirst, argminStep, RQ.lt, List.foldl]
  have hok : ray modelTie dataTie ⟨0, 0, 5⟩ ⟨0, 0, -1⟩ [] true (-1) = .ok (RQ.fin 4, 1) := by
    norm_num [ray, hg, hc, hargmin, RQ.isinf, List.getD]
  exact ⟨hok, ray_returns_first_minimum modelTie dataTie ⟨0, 0, 5⟩ ⟨0, 0, -1⟩ [] true (-1)
    (RQ.fin 4) 1 hok (by norm_num)⟩

end MjxRay
